import Mathlib

/-!
Verification of the harvest-to-jira enrichment pipeline.

This file is a shallow embedding of the TypeScript sources (`src/util.ts`,
`src/index.ts`, `src/types.ts`) into Lean 4, together with theorems settling
the specification's claims about them.

Modelling conventions:
  * TypeScript optional fields (`Partial<...>`, `x?`) become `Option`.
  * Network calls become explicit oracle functions passed in as arguments;
    an HTTP response is `FetchResult α` (non-success status/body, or a
    decoded value).
  * Async-generator stages become functions `List Item → List Item × ...`
    threading their state (the memoized timezone, call counters) explicitly.
  * Logger calls become `LogEntry` values, one constructor per call site in
    the source, with `LogEntry.level` recording the severity used there.
  * Loops whose termination depends on remote data (`do … while`) take a
    fuel argument; exhausting the fuel models non-termination (`none`).
-/

namespace HarvestToJira

/-- Severity levels of the `pino`-style logger (`logger.debug/info/warn/error`). -/
inductive LogLevel
  | debug
  | info
  | warn
  | error
deriving DecidableEq, Repr

/-- `src/types.ts` `HarvestTimeEntry.project`: `{ id: number; name: string }`. -/
structure HarvestProject where
  id : Nat
  name : String
deriving DecidableEq, Repr

/-- `src/types.ts` `HarvestTimeEntry.user`: `{ id: number; name: string }`. -/
structure HarvestUser where
  id : Nat
  name : String
deriving DecidableEq, Repr

/-- `src/types.ts` `HarvestTimeEntry`. `rounded_hours` is a decimal number,
modelled as `ℚ`; `notes` is optional. -/
structure HarvestTimeEntry where
  id : Nat
  is_closed : Bool
  notes : Option String
  project : HarvestProject
  rounded_hours : ℚ
  spent_date : String
  user : HarvestUser
deriving DecidableEq, Repr

/-- `src/types.ts` `HarvestTimeEntriesPage`: one page of the Harvest
time-entry listing, with `next_page: number | null`. -/
structure HarvestTimeEntriesPage where
  next_page : Option Nat
  time_entries : List HarvestTimeEntry
deriving DecidableEq, Repr

/-- `src/types.ts` `UserConfig` (all fields `Partial`). -/
structure UserConfig where
  harvestUserId : Option Nat
  harvestAccessToken : Option String
  harvestAccountId : Option Nat
deriving DecidableEq, Repr

/-- `src/types.ts` `ProjectConfig` (all fields `Partial`). -/
structure ProjectConfig where
  harvestId : Option Nat
  jiraProjectKey : Option String
  atlassianDomain : Option String
  atlassianApiToken : Option String
  atlassianAccountEmail : Option String
deriving DecidableEq, Repr

/-- `src/types.ts` `Config`. -/
structure Config where
  user : UserConfig
  projects : Option (List ProjectConfig)
deriving DecidableEq, Repr

/-- `src/types.ts` `JiraUser`: `{ timeZone: string }`. -/
structure JiraUser where
  timeZone : String
deriving DecidableEq, Repr

/-- One inline node of a work-log comment paragraph:
`Partial<TextContent> | Partial<EmojiContent>` in `src/types.ts`. Only the
`type` and `text` fields are ever inspected by the code (the emoji `attrs`
payload is opaque to every modelled function and omitted). -/
structure ContentNode where
  type : Option String := none
  text : Option String := none
deriving DecidableEq, Repr

/-- A paragraph of a work-log comment (`Partial`, per `src/types.ts`). -/
structure WorkLogParagraph where
  type : Option String := none
  content : Option (List ContentNode) := none
deriving DecidableEq, Repr

/-- The `comment` document of a work log (`Partial`, per `src/types.ts`). -/
structure WorkLogComment where
  version : Option Nat := none
  type : Option String := none
  content : Option (List WorkLogParagraph) := none
deriving DecidableEq, Repr

/-- `src/types.ts` `JiraWorkLog` (all fields `Partial`). -/
structure JiraWorkLog where
  timeSpentSeconds : Option ℚ := none
  notifyUsers : Option Bool := none
  started : Option String := none
  comment : Option WorkLogComment := none
deriving DecidableEq, Repr

/-- `src/types.ts` `JiraWorkLogResponse`. -/
structure JiraWorkLogResponse where
  startAt : Nat
  maxResults : Nat
  total : Nat
  worklogs : List JiraWorkLog
deriving DecidableEq, Repr

/-- `src/types.ts` `JiraIssue`: `{ key: string }`. -/
structure JiraIssue where
  key : String
deriving DecidableEq, Repr

/-- Outcome of one HTTP fetch: a non-success response (status and body
text), or a successfully decoded JSON value. -/
inductive FetchResult (α : Type)
  | httpError (status : Nat) (body : String)
  | ok (v : α)
deriving DecidableEq, Repr

/-- One logger call site of `src/util.ts`, one constructor per site,
carrying the structured fields passed to the logger there. -/
inductive LogEntry
  /-- `getJiraIssue`: `logger.error` on a non-success issue fetch. -/
  | issueFetchError (responseStatus : Nat) (responseBody : String)
  /-- `getWorklogs`: `logger.error` on a non-success work-log page fetch. -/
  | worklogsFetchError (responseStatus : Nat) (responseBody : String)
  /-- `enrichWithUserTz`: `logger.error` when the assignable-users query
  returns a non-success response. -/
  | tzFetchError (timeEntryId : Nat) (responseCode : Nat) (responseBody : String)
  /-- `enrichWithUserTz`: `logger.warn` when the user array is empty. -/
  | tzNoUser
  /-- `logTimeEntriesToJira`: `logger.debug` in dry-run mode, carrying the
  would-be request body. -/
  | dryRunSkip (requestBody : JiraWorkLog) (jiraKey : String)
  /-- `logTimeEntriesToJira`: `logger.error` when the creation POST fails. -/
  | postFailed (timeEntryId : Nat) (responseCode : Nat) (responseBody : String)
  /-- `logTimeEntriesToJira`: `logger.debug` after a successful POST. -/
  | postSucceeded (jiraKey : String)
  /-- `enrichWithProjectConfig`: `logger.info` when no project section
  matches the entry's project id. -/
  | unrecognizedProject (timeEntryId : Nat) (timeEntryDesc : Option String)
      (projectId : Nat) (projectDesc : String) (spentDate : String)
  /-- `enrichWithJiraIssue`: `logger.debug` when notes contain several keys. -/
  | multipleJiraKeys (timeEntryId : Nat) (timeEntryDesc : Option String) (spentDate : String)
  /-- `enrichWithJiraIssue`: `logger.warn` when no key is found in notes. -/
  | jiraKeyMissing (timeEntryId : Nat) (timeEntryDesc : Option String) (spentDate : String)
  /-- `enrichWithJiraIssue`: `logger.warn` when the key's issue fetch
  yielded nothing. -/
  | issueNotFound (jiraKey : String)
  /-- `canLogItemToJira`: `logger.info` for a non-closed entry. -/
  | entryNotClosed (timeEntryId : Nat) (timeEntryDesc : Option String) (spentDate : String)
  /-- `canLogItemToJira`: `logger.warn` for a user-id mismatch. -/
  | unrecognizedUser (userId : Nat) (timeEntryId : Nat) (timeEntryDesc : Option String)
      (spentDate : String)
  /-- `canLogItemToJira`: `logger.info` when a matching work log exists. -/
  | alreadyLogged (timeEntryId : Nat) (timeEntryDesc : Option String) (spentDate : String)
      (jiraKey : String)
deriving DecidableEq, Repr

/-- The logger method used at each call site of `src/util.ts`. -/
def LogEntry.level : LogEntry → LogLevel
  | .issueFetchError .. => .error
  | .worklogsFetchError .. => .error
  | .tzFetchError .. => .error
  | .tzNoUser => .warn
  | .dryRunSkip .. => .debug
  | .postFailed .. => .error
  | .postSucceeded .. => .debug
  | .unrecognizedProject .. => .info
  | .multipleJiraKeys .. => .debug
  | .jiraKeyMissing .. => .warn
  | .issueNotFound .. => .warn
  | .entryNotClosed .. => .info
  | .unrecognizedUser .. => .warn
  | .alreadyLogged .. => .info

/-- Character-list version of JS `String.prototype.startsWith`: does the
haystack begin with the needle? -/
def charsStartWith : List Char → List Char → Bool
  | _, [] => true
  | [], _ :: _ => false
  | c :: cs, d :: ds => c = d && charsStartWith cs ds

/-- Character-list version of JS `String.prototype.includes`. -/
def charsContain : List Char → List Char → Bool
  | [], needle => needle.isEmpty
  | c :: cs, needle => charsStartWith (c :: cs) needle || charsContain cs needle

/-- JS `hay.includes(needle)`. -/
def strIncludes (hay needle : String) : Bool :=
  charsContain hay.data needle.data

/-- JS truthiness of a `string | undefined` value: defined and non-empty
(this is the `.filter(Boolean)` test of `hasExistingWorkLog`). -/
def truthyStr : Option String → Bool
  | some s => !s.isEmpty
  | none => false

/-- The flattening
`worklog.comment?.content?.flatMap(p => p.content?.flatMap(t => t.type === "text" ? t.text : undefined))`
used by `hasExistingWorkLog`; `none` stands for the `undefined` elements
that optional chaining and the non-text branch leave in the array. -/
def commentTextsOfWorkLog (w : JiraWorkLog) : List (Option String) :=
  match w.comment.bind (fun c => c.content) with
  | none => [none]
  | some ps =>
    ps.flatMap fun p =>
      match p.content with
      | none => [none]
      | some ts => ts.map fun t => if t.type = some "text" then t.text else none

/-- `hasExistingWorkLog` (`src/util.ts` 159–172): collects all truthy text
fragments of all work-log comments and checks whether any of them contains
the decimal rendering of the Harvest id. -/
def hasExistingWorkLog (workLogs : List JiraWorkLog) (harvestId : Nat) : Bool :=
  let allComments :=
    ((workLogs.flatMap commentTextsOfWorkLog).filter truthyStr).filterMap id
  allComments.any fun c => strIncludes c (toString harvestId)

/-- Stand-in for the js-joda timestamp
`ZonedDateTime.of(LocalDate.parse(spentDate), LocalTime.NOON, ZoneId.of(userTz)).format(JIRA_DATE_TIME_FORMATTER)`
built by `logTimeEntriesToJira`.  The rendering itself is external-library
behaviour; no claim depends on the produced text, only on the inputs used. -/
def formatJiraStarted (spentDate userTz : String) : String :=
  spentDate ++ "T12:00:00@" ++ userTz

/-- The work-log creation request body built by `logTimeEntriesToJira`
(`src/util.ts` 242–266): seconds = rounded hours × 3600, a single
paragraph with the single text node `Harvest time entry ID: <id>`. -/
def buildWorkLogRequestBody (harvestId : Nat) (spent_date : String)
    (rounded_hours : ℚ) (userTz : String) : JiraWorkLog :=
  { timeSpentSeconds := some (rounded_hours * 60 * 60)
    notifyUsers := some false
    comment := some
      { version := some 1
        type := some "doc"
        content := some
          [{ type := some "paragraph"
             content := some
               [{ type := some "text"
                  text := some ("Harvest time entry ID: " ++ toString harvestId) }] }] }
    started := some (formatJiraStarted spent_date userTz) }

/-- The inline guard
`config.user && config.user.harvestUserId && config.user.harvestUserId !== user.id`
of `canLogItemToJira` (`config.user` is always an object, hence truthy; a
configured id of `0` is falsy in JS and disables the check). -/
def userMismatch (config : Config) (timeEntry : HarvestTimeEntry) : Bool :=
  match config.user.harvestUserId with
  | some uid => decide (uid ≠ 0) && decide (uid ≠ timeEntry.user.id)
  | none => false

/-- `canLogItemToJira` (`src/util.ts` 413–457), returning the boolean the
filter uses together with the diagnostics emitted during the call. -/
def canLogItemToJira (timeEntry : HarvestTimeEntry) (config : Config)
    (jiraIssue : JiraIssue) (workLogs : List JiraWorkLog) : Bool × List LogEntry :=
  if !timeEntry.is_closed then
    (false, [.entryNotClosed timeEntry.id timeEntry.notes timeEntry.spent_date])
  else if userMismatch config timeEntry then
    (false, [.unrecognizedUser timeEntry.user.id timeEntry.id timeEntry.notes
      timeEntry.spent_date])
  else if hasExistingWorkLog workLogs timeEntry.id then
    (false, [.alreadyLogged timeEntry.id timeEntry.notes timeEntry.spent_date jiraIssue.key])
  else
    (true, [])

/-! ### Pagination source (`getHarvestTimeEntries`, `src/util.ts` 63–97)

The source is a `do … while (requestMore)` loop.  `page` is initialised to
`1` and — exactly as in the source — never changed afterwards; every
iteration requests the same page number.  `requestMore` is
`responseObj.next_page !== null` of the page just received.  The remote
listing endpoint is modelled as a function from the requested page number
to the page it returns; the fuel argument bounds the number of iterations,
with `none` meaning the loop did not finish within the fuel. -/

/-- Loop body of `getHarvestTimeEntries`.  Note the recursive call passes
`page` unchanged: the source never increments its `page` variable. -/
def getHarvestTimeEntriesAux (remote : Nat → HarvestTimeEntriesPage) (page : Nat) :
    Nat → Option (List HarvestTimeEntry)
  | 0 => none
  | fuel + 1 =>
    let responseObj := remote page
    let requestMore := responseObj.next_page ≠ none
    if requestMore then
      match getHarvestTimeEntriesAux remote page fuel with
      | none => none
      | some rest => some (responseObj.time_entries ++ rest)
    else
      some responseObj.time_entries

/-- `getHarvestTimeEntries` (`src/util.ts` 63–97): starts at `page = 1`. -/
def getHarvestTimeEntries (remote : Nat → HarvestTimeEntriesPage) (fuel : Nat) :
    Option (List HarvestTimeEntry) :=
  getHarvestTimeEntriesAux remote 1 fuel

/-- A placeholder time entry used to populate mock pages. -/
def sampleEntry (n : Nat) : HarvestTimeEntry :=
  { id := n
    is_closed := true
    notes := none
    project := { id := 1, name := "p" }
    rounded_hours := 1
    spent_date := "2023-01-02"
    user := { id := 1, name := "u" } }

/-- The spec's mock remote: page 1 answers `next_page = 2` with 100
entries, page 2 answers `next_page = 3` with 100 entries, page 3 answers
`next_page = null` with 7 entries. -/
def mockThreePages : Nat → HarvestTimeEntriesPage
  | 1 => { next_page := some 2, time_entries := (List.range 100).map sampleEntry }
  | 2 => { next_page := some 3, time_entries := (List.range 100).map (fun n => sampleEntry (100 + n)) }
  | _ => { next_page := none, time_entries := (List.range 7).map (fun n => sampleEntry (200 + n)) }

/-- What the spec intends (`Modelled from the spec:` the pagination
contract "page 1, 2, …"): identical loop but with the page number
incremented between iterations. -/
def getHarvestTimeEntriesSpecAux (remote : Nat → HarvestTimeEntriesPage) (page : Nat) :
    Nat → Option (List HarvestTimeEntry)
  | 0 => none
  | fuel + 1 =>
    let responseObj := remote page
    let requestMore := responseObj.next_page ≠ none
    if requestMore then
      match getHarvestTimeEntriesSpecAux remote (page + 1) fuel with
      | none => none
      | some rest => some (responseObj.time_entries ++ rest)
    else
      some responseObj.time_entries

/-- Spec-intended pagination source, starting at page 1. -/
def getHarvestTimeEntriesSpec (remote : Nat → HarvestTimeEntriesPage) (fuel : Nat) :
    Option (List HarvestTimeEntry) :=
  getHarvestTimeEntriesSpecAux remote 1 fuel

/-! ### The enrichment pipeline (`src/index.ts` `run`, `src/util.ts` stages)

One record of the pipeline is modelled as a single structure whose optional
fields start out absent and are populated in stage order, mirroring the
widening intersection types `BaseIterable → WithProjectConfig → … →
DefinitelyWithWorkLogs` of `src/types.ts`.  Each async-generator stage
becomes a function on `List Item`, also returning its logs (and, where
stateful, its explicit state). -/

/-- One pipeline record.  The four optional fields correspond to the four
enrichment stages of `src/util.ts`. -/
structure Item where
  timeEntry : HarvestTimeEntry
  config : Config
  projectConfig : Option ProjectConfig := none
  userTz : Option String := none
  jiraIssue : Option JiraIssue := none
  workLogs : Option (List JiraWorkLog) := none
deriving DecidableEq, Repr

/-- The default timezone constant `TZ_AMERICA_NEW_YORK` of `src/util.ts`. -/
def TZ_AMERICA_NEW_YORK : String := "America/New_York"

/-- The lookup `(config.projects ?? []).find(pc => pc.harvestId === project.id)`
of `enrichWithProjectConfig` (`src/util.ts` 309–313): first match in
insertion order; an absent `harvestId` never equals a number. -/
def findProjectConfig (config : Config) (projectId : Nat) : Option ProjectConfig :=
  (config.projects.getD []).find? fun pc => pc.harvestId = some projectId

/-- Per-item body of `enrichWithProjectConfig` (`src/util.ts` 300–328):
attach the lookup result (possibly absent) and log at info level when
nothing matched; the record itself is always yielded. -/
def enrichWithProjectConfigOne (item : Item) : Item × List LogEntry :=
  let pc := findProjectConfig item.config item.timeEntry.project.id
  ({ item with projectConfig := pc },
    match pc with
    | none => [.unrecognizedProject item.timeEntry.id item.timeEntry.notes
        item.timeEntry.project.id item.timeEntry.project.name item.timeEntry.spent_date]
    | some _ => [])

/-- `enrichWithProjectConfig` over the whole stream. -/
def enrichWithProjectConfig : List Item → List Item × List LogEntry
  | [] => ([], [])
  | item :: rest =>
    let (i, logs) := enrichWithProjectConfigOne item
    let (out, logs2) := enrichWithProjectConfig rest
    (i :: out, logs ++ logs2)

/-- `enrichWithUserTz` (`src/util.ts` 174–225).  `memo` is the closure
variable `timezone` (`undefined` initially, possibly an empty string after
a degenerate success — JS truthiness decides whether the cached value is
used); `calls` counts the assignable-users HTTP requests made so far and
indexes the oracle.  Returns the yielded items, the logs, and the final
call count. -/
def enrichWithUserTzAux (oracle : Nat → FetchResult (List JiraUser)) :
    Option String → Nat → List Item → List Item × List LogEntry × Nat
  | _, calls, [] => ([], [], calls)
  | memo, calls, item :: rest =>
    if truthyStr memo then
      let r := enrichWithUserTzAux oracle memo calls rest
      ({ item with userTz := memo } :: r.1, r.2)
    else
      match oracle calls with
      | .httpError status body =>
        let r := enrichWithUserTzAux oracle memo (calls + 1) rest
        ({ item with userTz := some (memo.getD TZ_AMERICA_NEW_YORK) } :: r.1,
          .tzFetchError item.timeEntry.id status body :: r.2.1, r.2.2)
      | .ok users =>
        match users.head? with
        | none =>
          let r := enrichWithUserTzAux oracle memo (calls + 1) rest
          ({ item with userTz := some (memo.getD TZ_AMERICA_NEW_YORK) } :: r.1,
            .tzNoUser :: r.2.1, r.2.2)
        | some user =>
          let r := enrichWithUserTzAux oracle (some user.timeZone) (calls + 1) rest
          ({ item with userTz := some user.timeZone } :: r.1, r.2)

/-- `enrichWithUserTz`, starting with no memoized timezone and no calls. -/
def enrichWithUserTz (oracle : Nat → FetchResult (List JiraUser)) (items : List Item) :
    List Item × List LogEntry × Nat :=
  enrichWithUserTzAux oracle none 0 items

/-- `getJiraIssue` (`src/util.ts` 99–125): log an error and return null on
a non-success response, otherwise the decoded issue. -/
def getJiraIssue (oracle : String → FetchResult JiraIssue) (jiraKey : String) :
    Option JiraIssue × List LogEntry :=
  match oracle jiraKey with
  | .httpError status body => (none, [.issueFetchError status body])
  | .ok issue => (some issue, [])

/-- Greedy `[0-9]+` munch at the head of a character list. -/
def takeDigits : List Char → List Char × List Char
  | [] => ([], [])
  | c :: cs =>
    if c.isDigit then
      let r := takeDigits cs
      (c :: r.1, r.2)
    else ([], c :: cs)

/-- One attempt of the regex `(KEY\-[0-9]+)` anchored at the head:
the key literally, a hyphen, then one or more digits (greedy).  Returns
the matched characters and the remaining input. -/
def matchKeyAt (key : List Char) (s : List Char) : Option (List Char × List Char) :=
  if charsStartWith s key then
    match s.drop key.length with
    | '-' :: rest =>
      let r := takeDigits rest
      if r.1.isEmpty then none else some (key ++ '-' :: r.1, r.2)
    | _ => none
  else none

/-- The `jiraKeyRegex.exec` loop of `enrichWithJiraIssue` (`src/util.ts`
339–350): all non-overlapping matches in left-to-right order, scanning
resuming after each match.  Fuel is the input length (every step consumes
at least one character). -/
def scanJiraKeysAux (key : List Char) : Nat → List Char → List String
  | 0, _ => []
  | _ + 1, [] => []
  | fuel + 1, c :: cs =>
    match matchKeyAt key (c :: cs) with
    | some (m, rest) => String.mk m :: scanJiraKeysAux key fuel rest
    | none => scanJiraKeysAux key fuel cs

/-- Key extraction from an entry's notes: the source interpolates
`projectConfig.jiraProjectKey` into the pattern (an absent key renders as
the literal `undefined`) and scans `notes ?? ""`. -/
def extractJiraKeys (jiraProjectKey : Option String) (notes : Option String) : List String :=
  let keyStr := match jiraProjectKey with
    | some k => k
    | none => "undefined"
  let n := (notes.getD "").data
  scanJiraKeysAux keyStr.data n.length n

/-- Per-item body of `enrichWithJiraIssue` (`src/util.ts` 330–383).  The
stage's input type guarantees `projectConfig` is present; the `bind`
projection reads its `jiraProjectKey`. -/
def enrichWithJiraIssueOne (oracle : String → FetchResult JiraIssue) (item : Item) :
    Item × List LogEntry :=
  let keyMatches := extractJiraKeys (item.projectConfig.bind fun pc => pc.jiraProjectKey)
    item.timeEntry.notes
  let logs1 : List LogEntry :=
    if keyMatches.length > 1 then
      [.multipleJiraKeys item.timeEntry.id item.timeEntry.notes item.timeEntry.spent_date]
    else []
  match keyMatches.head? with
  | none =>
    ({ item with jiraIssue := none },
      logs1 ++ [.jiraKeyMissing item.timeEntry.id item.timeEntry.notes item.timeEntry.spent_date])
  | some jiraKey =>
    let r := getJiraIssue oracle jiraKey
    let logs3 : List LogEntry := match r.1 with
      | none => [.issueNotFound jiraKey]
      | some _ => []
    ({ item with jiraIssue := r.1 }, logs1 ++ r.2 ++ logs3)

/-- `enrichWithJiraIssue` over the whole stream. -/
def enrichWithJiraIssue (oracle : String → FetchResult JiraIssue) :
    List Item → List Item × List LogEntry
  | [] => ([], [])
  | item :: rest =>
    let (i, logs) := enrichWithJiraIssueOne oracle item
    let (out, logs2) := enrichWithJiraIssue oracle rest
    (i :: out, logs ++ logs2)

/-- `getWorklogs` (`src/util.ts` 127–155): log an error and return null on
a non-success response, otherwise the decoded page. -/
def getWorklogs (oracle : String → Nat → FetchResult JiraWorkLogResponse)
    (jiraKey : String) (startAt : Nat) : Option JiraWorkLogResponse × List LogEntry :=
  match oracle jiraKey startAt with
  | .httpError status body => (none, [.worklogsFetchError status body])
  | .ok resp => (some resp, [])

/-- The `do … while (startAt)` paging loop of `enrichWithJiraWorkLogs`
(`src/util.ts` 392–404): each iteration fetches at the current `startAt`,
breaks (keeping what was collected so far) on a null response, otherwise
appends the page's work logs and continues while the response's `startAt`
is truthy (non-zero).  Fuel bounds the iterations. -/
def collectWorkLogsAux (oracle : String → Nat → FetchResult JiraWorkLogResponse)
    (jiraKey : String) : Nat → Nat → List JiraWorkLog × List LogEntry
  | 0, _ => ([], [])
  | fuel + 1, startAt =>
    match getWorklogs oracle jiraKey startAt with
    | (none, logs) => ([], logs)
    | (some resp, logs) =>
      if resp.startAt ≠ 0 then
        let r := collectWorkLogsAux oracle jiraKey fuel resp.startAt
        (resp.worklogs ++ r.1, logs ++ r.2)
      else (resp.worklogs, logs)

/-- The issue key of a record past the has-issue filter (the stage input
type `DefinitelyWithJiraIssue` guarantees presence). -/
def itemJiraKey (item : Item) : String :=
  (item.jiraIssue.map JiraIssue.key).getD ""

/-- Per-item body of `enrichWithJiraWorkLogs` (`src/util.ts` 385–411):
attach the concatenated pages (possibly empty) — the record is always
yielded, never dropped. -/
def enrichWithJiraWorkLogsOne (oracle : String → Nat → FetchResult JiraWorkLogResponse)
    (fuel : Nat) (item : Item) : Item × List LogEntry :=
  let r := collectWorkLogsAux oracle (itemJiraKey item) fuel 0
  ({ item with workLogs := some r.1 }, r.2)

/-- `enrichWithJiraWorkLogs` over the whole stream. -/
def enrichWithJiraWorkLogs (oracle : String → Nat → FetchResult JiraWorkLogResponse)
    (fuel : Nat) : List Item → List Item × List LogEntry
  | [] => ([], [])
  | item :: rest =>
    let (i, logs) := enrichWithJiraWorkLogsOne oracle fuel item
    let (out, logs2) := enrichWithJiraWorkLogs oracle fuel rest
    (i :: out, logs ++ logs2)

/-- `canLogItemToJira` applied to a pipeline record (the filter position in
`run`); the input type `DefinitelyWithWorkLogs` guarantees the issue and
work logs are present, the defaults are never read past the filters. -/
def canLogItem (item : Item) : Bool × List LogEntry :=
  canLogItemToJira item.timeEntry item.config (item.jiraIssue.getD { key := "" })
    (item.workLogs.getD [])

/-- A remote side effect of the Work-Log Writer. -/
inductive Effect
  | post (jiraKey : String) (body : JiraWorkLog)
deriving DecidableEq, Repr

/-- The request body `logTimeEntriesToJira` builds for a record. -/
def itemRequestBody (item : Item) : JiraWorkLog :=
  buildWorkLogRequestBody item.timeEntry.id item.timeEntry.spent_date
    item.timeEntry.rounded_hours (item.userTz.getD "")

/-- The `tap` side effect of `logTimeEntriesToJira` (`src/util.ts`
231–297) for one record: in dry-run mode only a debug log of the would-be
request body, no POST; in live mode the POST, an error log on non-success,
a debug log on success.  The record itself is passed through unchanged by
`tap` in every case. -/
def logOneTimeEntry (postOracle : String → JiraWorkLog → FetchResult Unit)
    (dryRun : Bool) (item : Item) : List Effect × List LogEntry :=
  let jiraKey := itemJiraKey item
  let requestBody := itemRequestBody item
  if dryRun then
    ([], [.dryRunSkip requestBody jiraKey])
  else
    match postOracle jiraKey requestBody with
    | .httpError status body =>
      ([.post jiraKey requestBody], [.postFailed item.timeEntry.id status body])
    | .ok _ => ([.post jiraKey requestBody], [.postSucceeded jiraKey])

/-- `logTimeEntriesToJira` over the whole stream: `tap` yields every input
record unchanged and accumulates the side effects. -/
def logTimeEntriesToJira (postOracle : String → JiraWorkLog → FetchResult Unit)
    (dryRun : Bool) : List Item → List Item × List Effect × List LogEntry
  | [] => ([], [], [])
  | item :: rest =>
    let (effs, logs) := logOneTimeEntry postOracle dryRun item
    let r := logTimeEntriesToJira postOracle dryRun rest
    (item :: r.1, effs ++ r.2.1, logs ++ r.2.2)

/-- The remote world the pipeline talks to, as oracles: the timezone
lookup indexed by call count, the issue fetch by key, the work-log listing
by key and `startAt`, the creation POST by key and body.  `wlFuel` bounds
the work-log paging loop. -/
structure Env where
  tzOracle : Nat → FetchResult (List JiraUser)
  issueOracle : String → FetchResult JiraIssue
  wlOracle : String → Nat → FetchResult JiraWorkLogResponse
  postOracle : String → JiraWorkLog → FetchResult Unit
  wlFuel : Nat

/-- All intermediate streams of one `run` (`src/index.ts` 576–603),
stage by stage, with the writer's effects, all logs, and the final
`totalLoggedHours` fold. -/
structure PipelineTrace where
  afterProjectConfig : List Item
  afterProjectFilter : List Item
  afterUserTz : List Item
  tzCalls : Nat
  afterJiraIssue : List Item
  afterIssueFilter : List Item
  afterWorkLogs : List Item
  writerInput : List Item
  writerOutput : List Item
  effects : List Effect
  writerLogs : List LogEntry
  logs : List LogEntry
  totalLoggedHours : ℚ

/-- The `reduce((acc, item) => acc + item.timeEntry.rounded_hours, 0, …)`
fold of `run` (`src/index.ts` 597–601). -/
def totalHours (items : List Item) : ℚ :=
  items.foldl (fun acc item => acc + item.timeEntry.rounded_hours) 0

/-- The pipeline of `run` (`src/index.ts` 576–595) downstream of the
pagination source: project-config enrichment, has-project-config filter,
timezone enrichment, issue enrichment, has-issue filter, work-log
enrichment, the `canLogItemToJira` filter, then the writer and the fold. -/
def runPipeline (env : Env) (entries : List HarvestTimeEntry) (config : Config)
    (dryRun : Bool) : PipelineTrace :=
  let items0 := entries.map fun e => ({ timeEntry := e, config := config } : Item)
  let r1 := enrichWithProjectConfig items0
  let s2 := r1.1.filter fun i => i.projectConfig.isSome
  let r3 := enrichWithUserTz env.tzOracle s2
  let r4 := enrichWithJiraIssue env.issueOracle r3.1
  let s5 := r4.1.filter fun i => i.jiraIssue.isSome
  let r6 := enrichWithJiraWorkLogs env.wlOracle env.wlFuel s5
  let filterLogs := r6.1.flatMap fun i => (canLogItem i).2
  let s7 := r6.1.filter fun i => (canLogItem i).1
  let r8 := logTimeEntriesToJira env.postOracle dryRun s7
  { afterProjectConfig := r1.1
    afterProjectFilter := s2
    afterUserTz := r3.1
    tzCalls := r3.2.2
    afterJiraIssue := r4.1
    afterIssueFilter := s5
    afterWorkLogs := r6.1
    writerInput := s7
    writerOutput := r8.1
    effects := r8.2.1
    writerLogs := r8.2.2
    logs := r1.2 ++ r3.2.1 ++ r4.2 ++ r6.2 ++ filterLogs ++ r8.2.2
    totalLoggedHours := totalHours r8.1 }

/-- A timezone lookup response that resolves: HTTP success, at least one
user, and a truthy (non-empty) timezone, so the stage caches it. -/
def tzResolves : FetchResult (List JiraUser) → Bool
  | .ok (u :: _) => !u.timeZone.isEmpty
  | _ => false

/-- A timezone lookup response that fails in the claim's sense: HTTP
non-success or an empty result set (nothing is cached either way). -/
def tzFailing : FetchResult (List JiraUser) → Bool
  | .httpError .. => true
  | .ok [] => true
  | .ok (_ :: _) => false

/-! ### Concrete fixtures used by witnesses and counterexamples -/

/-- A lookup oracle failing on the first call and resolving afterwards. -/
def oracleRetry : Nat → FetchResult (List JiraUser) := fun n =>
  if n = 0 then .httpError 500 "boom" else .ok [{ timeZone := "Europe/Paris" }]

/-- A concrete open (not-closed) time entry. -/
def entryOpen : HarvestTimeEntry :=
  { id := 42
    is_closed := false
    notes := some "FOO-1 work"
    project := { id := 9, name := "Website" }
    rounded_hours := 2
    spent_date := "2023-05-01"
    user := { id := 7, name := "Sam" } }

/-- A concrete closed time entry whose notes name two issues. -/
def entryTwoKeys : HarvestTimeEntry :=
  { id := 314
    is_closed := true
    notes := some "FOO-12 and FOO-99 both apply"
    project := { id := 9, name := "Website" }
    rounded_hours := 3
    spent_date := "2023-05-02"
    user := { id := 7, name := "Sam" } }

/-- A concrete project section mapping Harvest project 9 to key FOO. -/
def fooProjectConfig : ProjectConfig :=
  { harvestId := some 9
    jiraProjectKey := some "FOO"
    atlassianDomain := some "example"
    atlassianApiToken := some "tok"
    atlassianAccountEmail := some "sam@example.com" }

/-- A concrete config expecting user 7 and holding `fooProjectConfig`. -/
def sampleConfig : Config :=
  { user := { harvestUserId := some 7
              harvestAccessToken := some "t"
              harvestAccountId := some 1 }
    projects := some [fooProjectConfig] }

/-- A pipeline record for `entryTwoKeys` as it stands past the
project-config filter. -/
def itemTwoKeys : Item :=
  { timeEntry := entryTwoKeys
    config := sampleConfig
    projectConfig := some fooProjectConfig }

/-- `itemTwoKeys` as it stands past the has-issue filter. -/
def itemWithIssue : Item :=
  { itemTwoKeys with
    userTz := some TZ_AMERICA_NEW_YORK
    jiraIssue := some { key := "FOO-12" } }

/-- A work-log listing oracle whose every page request fails. -/
def wlOracleFailing : String → Nat → FetchResult JiraWorkLogResponse :=
  fun _ _ => .httpError 503 "unavailable"

/-- A creation POST oracle whose every request fails. -/
def postOracleFailing : String → JiraWorkLog → FetchResult Unit :=
  fun _ _ => .httpError 500 "kaput"

/-- A fully healthy remote: timezone resolves, issues exist under their
keys, work-log listings are a single empty page, POSTs succeed. -/
def env0 : Env :=
  { tzOracle := fun _ => .ok [{ timeZone := "Europe/Paris" }]
    issueOracle := fun k => .ok { key := k }
    wlOracle := fun _ _ => .ok { startAt := 0, maxResults := 50, total := 0, worklogs := [] }
    postOracle := fun _ _ => .ok ()
    wlFuel := 3 }

/-- The record for `entryTwoKeys` as it reaches the Work-Log Writer under
`env0`. -/
def writerItem : Item :=
  { timeEntry := entryTwoKeys
    config := sampleConfig
    projectConfig := some fooProjectConfig
    userTz := some "Europe/Paris"
    jiraIssue := some { key := "FOO-12" }
    workLogs := some [] }

/-- The code's pagination loop never changes its page argument, so on the
three-page mock every iteration re-fetches page 1 (whose `next_page` is 2),
`requestMore` never becomes false, and no fuel suffices. -/
theorem getHarvestTimeEntriesAux_mockThreePages_none :
    ∀ fuel, getHarvestTimeEntriesAux mockThreePages 1 fuel = none := by
  intro fuel
  induction fuel with
  | zero => rfl
  | succ n ih => simp [getHarvestTimeEntriesAux, mockThreePages, ih]

/-- C1: the Pagination Source is claimed to request pages 1, 2, … and, on a
remote returning 3 pages (`next_page` 2, 3, null; 100/100/7 entries), to
yield exactly 207 entries in page order and terminate.  The code never
increments its `page` variable, so on that very remote the loop re-requests
page 1 forever and never terminates (it returns `none` for every fuel
bound); the spec-intended variant that does increment the page yields the
207 entries in page order after exactly the 3 requests. -/
theorem C1_pagination_never_terminates :
    (∀ fuel, getHarvestTimeEntries mockThreePages fuel = none) ∧
      getHarvestTimeEntriesSpec mockThreePages 3 =
        some ((List.range 100).map sampleEntry ++
          ((List.range 100).map (fun n => sampleEntry (100 + n)) ++
            (List.range 7).map (fun n => sampleEntry (200 + n)))) := by
  constructor
  · exact getHarvestTimeEntriesAux_mockThreePages_none
  · rfl

theorem charsStartWith_append (b extra : List Char) :
    charsStartWith (b ++ extra) b = true := by
  induction b with
  | nil => simp [charsStartWith]
  | cons c cs ih => simp [charsStartWith, ih]

theorem charsContain_self (b : List Char) : charsContain b b = true := by
  cases b with
  | nil => rfl
  | cons c cs =>
    have h := charsStartWith_append (c :: cs) []
    simp at h
    simp [charsContain, h]

theorem charsContain_append (a b : List Char) : charsContain (a ++ b) b = true := by
  induction a with
  | nil => simpa using charsContain_self b
  | cons x xs ih => simp [charsContain, ih]

/-- A string contains any of its suffixes (JS `includes`). -/
theorem strIncludes_append_right (s t : String) : strIncludes (s ++ t) t = true := by
  simpa [strIncludes, String.data_append] using charsContain_append s.data t.data

/-- The comment token string is never empty. -/
theorem harvestToken_ne_empty (n : Nat) :
    ("Harvest time entry ID: " ++ toString n).isEmpty = false := by
  rw [Bool.eq_false_iff]
  intro hEmpty
  rw [String.isEmpty_iff] at hEmpty
  have := congrArg String.data hEmpty
  simp [String.data_append] at this

/-- The one text fragment of the built body. -/
theorem commentTextsOfWorkLog_build (harvestId : Nat) (d : String) (h : ℚ) (tz : String) :
    commentTextsOfWorkLog (buildWorkLogRequestBody harvestId d h tz) =
      [some ("Harvest time entry ID: " ++ toString harvestId)] := by
  simp [commentTextsOfWorkLog, buildWorkLogRequestBody]

/-- The duplicate scan recognises the built body on its own. -/
theorem hasExistingWorkLog_build (harvestId : Nat) (d : String) (h : ℚ) (tz : String) :
    hasExistingWorkLog [buildWorkLogRequestBody harvestId d h tz] harvestId = true := by
  simp [hasExistingWorkLog, commentTextsOfWorkLog_build, truthyStr,
    harvestToken_ne_empty, strIncludes_append_right]

/-- The duplicate scan is monotone: a collection containing a recognised
work log is itself recognised. -/
theorem hasExistingWorkLog_of_mem (l1 l2 : List JiraWorkLog) (b : JiraWorkLog)
    (harvestId : Nat) (hb : hasExistingWorkLog [b] harvestId = true) :
    hasExistingWorkLog (l1 ++ b :: l2) harvestId = true := by
  simp [hasExistingWorkLog] at hb ⊢
  exact Or.inr (Or.inl hb)

/-- C2: the comment body the Work-Log Writer builds consists of the single
text fragment `Harvest time entry ID: <id>`, which contains the entry's id
as a decimal token; `hasExistingWorkLog` on any collection containing that
comment together with the same id returns true; hence `canLogItemToJira`
returns false for an entry whose first-run work log is present, so a second
run over the same remote state re-submits no such entry. -/
theorem C2_worklog_roundtrip (e : HarvestTimeEntry) (config : Config)
    (jiraIssue : JiraIssue) (l1 l2 : List JiraWorkLog) (tz : String) :
    commentTextsOfWorkLog (buildWorkLogRequestBody e.id e.spent_date e.rounded_hours tz) =
        [some ("Harvest time entry ID: " ++ toString e.id)] ∧
      strIncludes ("Harvest time entry ID: " ++ toString e.id) (toString e.id) = true ∧
      hasExistingWorkLog [buildWorkLogRequestBody e.id e.spent_date e.rounded_hours tz]
          e.id = true ∧
      (canLogItemToJira e config jiraIssue
          (l1 ++ buildWorkLogRequestBody e.id e.spent_date e.rounded_hours tz :: l2)).fst
        = false := by
  refine ⟨commentTextsOfWorkLog_build .., strIncludes_append_right .., hasExistingWorkLog_build .., ?_⟩
  have hex := hasExistingWorkLog_of_mem l1 l2 _ e.id (hasExistingWorkLog_build e.id e.spent_date e.rounded_hours tz)
  cases hcl : e.is_closed <;> cases hum : userMismatch config e <;>
    simp [canLogItemToJira, hex, hcl, hum]

/-- C4: `canLogItemToJira` evaluates its three checks in the fixed order
(1) entry not closed, (2) configured (truthy) expected user id differing
from the entry's user id, (3) existing work-log comment containing the
entry's id; it returns false with exactly the first failing check's single
diagnostic, and true with no diagnostic only when all three pass; in
particular an entry with `is_closed = false` is rejected regardless of
every other field value. -/
theorem C4_canLog_priority (e : HarvestTimeEntry) (config : Config)
    (jiraIssue : JiraIssue) (workLogs : List JiraWorkLog) :
    (e.is_closed = false →
      canLogItemToJira e config jiraIssue workLogs =
        (false, [.entryNotClosed e.id e.notes e.spent_date])) ∧
      (e.is_closed = true → userMismatch config e = true →
        canLogItemToJira e config jiraIssue workLogs =
          (false, [.unrecognizedUser e.user.id e.id e.notes e.spent_date])) ∧
      (e.is_closed = true → userMismatch config e = false →
        hasExistingWorkLog workLogs e.id = true →
        canLogItemToJira e config jiraIssue workLogs =
          (false, [.alreadyLogged e.id e.notes e.spent_date jiraIssue.key])) ∧
      (e.is_closed = true → userMismatch config e = false →
        hasExistingWorkLog workLogs e.id = false →
        canLogItemToJira e config jiraIssue workLogs = (true, [])) ∧
      ((canLogItemToJira e config jiraIssue workLogs).1 = false →
        (canLogItemToJira e config jiraIssue workLogs).2.length = 1) ∧
      ((canLogItemToJira e config jiraIssue workLogs).1 = true →
        (canLogItemToJira e config jiraIssue workLogs).2 = []) := by
  cases hcl : e.is_closed <;> cases hum : userMismatch config e <;>
    cases hex : hasExistingWorkLog workLogs e.id <;>
    simp [canLogItemToJira, hcl, hum, hex]

theorem C4_canLog_priority_witness :
    entryOpen.is_closed = false ∧
      canLogItemToJira entryOpen sampleConfig { key := "FOO-1" } [] =
        (false, [.entryNotClosed 42 (some "FOO-1 work") "2023-05-01"]) :=
  ⟨rfl, (C4_canLog_priority entryOpen sampleConfig { key := "FOO-1" } []).1 rfl⟩

/-- The enrichment stage is the per-item attachment, mapped. -/
theorem enrichWithProjectConfig_fst (items : List Item) :
    (enrichWithProjectConfig items).1 =
      items.map fun i =>
        { i with projectConfig := findProjectConfig i.config i.timeEntry.project.id } := by
  induction items with
  | nil => rfl
  | cons i rest ih => simp [enrichWithProjectConfig, enrichWithProjectConfigOne, ih]

/-- `find?` returns the first satisfying element. -/
theorem find?_first {α : Type} (p : α → Bool) (pc : α) :
    ∀ (l1 l2 : List α), p pc = true → (∀ x ∈ l1, p x = false) →
      (l1 ++ pc :: l2).find? p = some pc := by
  intro l1
  induction l1 with
  | nil => intro l2 hp _; simpa using List.find?_cons_of_pos l2 hp
  | cons x xs ih =>
    intro l2 hp hneg
    have hx : p x = false := hneg x (List.mem_cons_self x xs)
    have hrec := ih l2 hp fun y hy => hneg y (List.mem_cons_of_mem x hy)
    have hx' : ¬ p x = true := by simp [hx]
    show (x :: (xs ++ pc :: l2)).find? p = some pc
    rw [List.find?_cons_of_neg _ hx']
    exact hrec

/-- C8: project-config enrichment yields every record (length preserved),
attaching to each the first section in the config's insertion order whose
`harvestId` equals the entry's project id; on no match the record is still
yielded with the field absent together with exactly one info-level
diagnostic naming the entry and the unmatched project id, and on a match
no diagnostic is emitted. -/
theorem C8_project_config_enrichment (items : List Item) (item : Item)
    (l1 l2 : List ProjectConfig) (pc : ProjectConfig) :
    (enrichWithProjectConfig items).1 =
        (items.map fun i =>
          { i with projectConfig := findProjectConfig i.config i.timeEntry.project.id }) ∧
      (enrichWithProjectConfig items).1.length = items.length ∧
      (item.config.projects = some (l1 ++ pc :: l2) →
        pc.harvestId = some item.timeEntry.project.id →
        (∀ pc' ∈ l1, pc'.harvestId ≠ some item.timeEntry.project.id) →
        findProjectConfig item.config item.timeEntry.project.id = some pc) ∧
      (findProjectConfig item.config item.timeEntry.project.id = none →
        enrichWithProjectConfigOne item =
          ({ item with projectConfig := none },
            [.unrecognizedProject item.timeEntry.id item.timeEntry.notes
              item.timeEntry.project.id item.timeEntry.project.name
              item.timeEntry.spent_date])) ∧
      (LogEntry.unrecognizedProject item.timeEntry.id item.timeEntry.notes
        item.timeEntry.project.id item.timeEntry.project.name
        item.timeEntry.spent_date).level = .info ∧
      (findProjectConfig item.config item.timeEntry.project.id = some pc →
        enrichWithProjectConfigOne item = ({ item with projectConfig := some pc }, [])) := by
  refine ⟨enrichWithProjectConfig_fst items, by simp [enrichWithProjectConfig_fst items], ?_, ?_, rfl, ?_⟩
  · intro hproj hpc hneg
    unfold findProjectConfig
    rw [hproj]
    exact find?_first _ pc l1 l2 (by simp [hpc]) (fun x hx => by simpa using hneg x hx)
  · intro hnone
    simp [enrichWithProjectConfigOne, hnone]
  · intro hsome
    simp [enrichWithProjectConfigOne, hsome]

theorem C8_project_config_enrichment_witness :
    sampleConfig.projects = some ([] ++ fooProjectConfig :: []) ∧
      fooProjectConfig.harvestId = some 9 ∧
      findProjectConfig sampleConfig 9 = some fooProjectConfig ∧
      enrichWithProjectConfigOne { timeEntry := entryTwoKeys, config := sampleConfig } =
        ({ timeEntry := entryTwoKeys, config := sampleConfig,
           projectConfig := some fooProjectConfig }, []) := by
  have h := C8_project_config_enrichment []
    { timeEntry := entryTwoKeys, config := sampleConfig } [] [] fooProjectConfig
  refine ⟨rfl, rfl, ?_, ?_⟩
  · exact h.2.2.1 rfl rfl (by simp)
  · exact h.2.2.2.2.2 (h.2.2.1 rfl rfl (by simp))

/-- C6 (counterexample to the claimed severity): on the spec's own example
— notes `FOO-12 and FOO-99 both apply` with project key FOO — extraction
yields both keys, the stage uses the first (`FOO-12`) and emits exactly one
multiple-match diagnostic, but that diagnostic is logged with
`logger.debug`, not at info level as claimed. -/
theorem C6_jira_key_counterexample :
    extractJiraKeys (some "FOO") (some "FOO-12 and FOO-99 both apply") =
        ["FOO-12", "FOO-99"] ∧
      (enrichWithJiraIssueOne (fun k => .ok { key := k }) itemTwoKeys).1.jiraIssue =
        some { key := "FOO-12" } ∧
      (enrichWithJiraIssueOne (fun k => .ok { key := k }) itemTwoKeys).2 =
        [.multipleJiraKeys 314 (some "FOO-12 and FOO-99 both apply") "2023-05-02"] ∧
      (LogEntry.multipleJiraKeys 314 (some "FOO-12 and FOO-99 both apply")
          "2023-05-02").level = .debug ∧
      LogLevel.debug ≠ LogLevel.info := by
  refine ⟨by decide, by decide, by decide, rfl, by decide⟩

/-- C6 (amended): the extraction scans `notes ?? ""` for all
non-overlapping left-to-right matches of `<jiraProjectKey>-<digits>`; with
zero matches the stage emits a warning and leaves the issue unset; with
several matches it emits a debug-level diagnostic (not info) and uses only
the first match; on the example notes with key FOO it extracts exactly
`FOO-12` then `FOO-99` and uses `FOO-12`. -/
theorem C6_jira_key_extraction (oracle : String → FetchResult JiraIssue) (item : Item) :
    (extractJiraKeys (item.projectConfig.bind fun pc => pc.jiraProjectKey)
        item.timeEntry.notes = [] →
      enrichWithJiraIssueOne oracle item =
        ({ item with jiraIssue := none },
          [.jiraKeyMissing item.timeEntry.id item.timeEntry.notes
            item.timeEntry.spent_date])) ∧
      (LogEntry.jiraKeyMissing item.timeEntry.id item.timeEntry.notes
        item.timeEntry.spent_date).level = .warn ∧
      (∀ k1 k2 rest,
        extractJiraKeys (item.projectConfig.bind fun pc => pc.jiraProjectKey)
            item.timeEntry.notes = k1 :: k2 :: rest →
        enrichWithJiraIssueOne oracle item =
          ({ item with jiraIssue := (getJiraIssue oracle k1).1 },
            .multipleJiraKeys item.timeEntry.id item.timeEntry.notes
                item.timeEntry.spent_date ::
              ((getJiraIssue oracle k1).2 ++
                match (getJiraIssue oracle k1).1 with
                | none => [.issueNotFound k1]
                | some _ => []))) ∧
      (LogEntry.multipleJiraKeys item.timeEntry.id item.timeEntry.notes
        item.timeEntry.spent_date).level = .debug ∧
      extractJiraKeys (some "FOO") (some "FOO-12 and FOO-99 both apply") =
        ["FOO-12", "FOO-99"] := by
  refine ⟨?_, rfl, ?_, rfl, by decide⟩
  · intro h
    simp [enrichWithJiraIssueOne, h]
  · intro k1 k2 rest h
    simp [enrichWithJiraIssueOne, h]

theorem C6_jira_key_extraction_witness :
    extractJiraKeys (itemTwoKeys.projectConfig.bind fun pc => pc.jiraProjectKey)
        itemTwoKeys.timeEntry.notes = "FOO-12" :: "FOO-99" :: [] ∧
      enrichWithJiraIssueOne (fun k => .ok { key := k }) itemTwoKeys =
        ({ itemTwoKeys with jiraIssue := some { key := "FOO-12" } },
          [.multipleJiraKeys 314 (some "FOO-12 and FOO-99 both apply") "2023-05-02"]) :=
  ⟨by decide,
    (C6_jira_key_extraction (fun k => .ok { key := k }) itemTwoKeys).2.2.1
      "FOO-12" "FOO-99" [] (by decide)⟩

theorem truthyStr_isSome {m : Option String} (h : truthyStr m = true) : m.isSome := by
  cases m <;> simp_all [truthyStr]

/-- Once the memoized timezone is truthy, the stage makes no further HTTP
call and stamps every remaining record with the cached value. -/
theorem enrichWithUserTzAux_cached (oracle : Nat → FetchResult (List JiraUser))
    (memo : Option String) (h : truthyStr memo = true) :
    ∀ (l : List Item) (calls : Nat),
      enrichWithUserTzAux oracle memo calls l =
        (l.map fun i => { i with userTz := memo }, [], calls) := by
  intro l
  induction l with
  | nil => intro calls; simp [enrichWithUserTzAux]
  | cons x xs ih => intro calls; simp [enrichWithUserTzAux, h, ih]

/-- Against an always-HTTP-failing oracle the stage calls once per record,
logs the fetch error each time, stamps the fixed default timezone, and
never caches. -/
theorem enrichWithUserTzAux_httpError (s : Nat) (b : String) :
    ∀ (l : List Item) (calls : Nat),
      enrichWithUserTzAux (fun _ => .httpError s b) none calls l =
        (l.map fun i => { i with userTz := some TZ_AMERICA_NEW_YORK },
          l.map fun i => .tzFetchError i.timeEntry.id s b,
          calls + l.length) := by
  intro l
  induction l with
  | nil => intro calls; simp [enrichWithUserTzAux]
  | cons x xs ih =>
    intro calls
    simp [enrichWithUserTzAux, truthyStr, ih, Option.getD]
    omega

/-- Against an oracle always answering an empty user list the stage calls
once per record, warns each time, and stamps the default. -/
theorem enrichWithUserTzAux_emptyUsers :
    ∀ (l : List Item) (calls : Nat),
      enrichWithUserTzAux (fun _ => .ok []) none calls l =
        (l.map fun i => { i with userTz := some TZ_AMERICA_NEW_YORK },
          l.map fun _ => .tzNoUser,
          calls + l.length) := by
  intro l
  induction l with
  | nil => intro calls; simp [enrichWithUserTzAux]
  | cons x xs ih =>
    intro calls
    simp [enrichWithUserTzAux, truthyStr, ih, Option.getD]
    omega

/-- Every record the timezone stage yields carries the fields of one input
record, with `userTz` always populated. -/
theorem enrichWithUserTzAux_mem (oracle : Nat → FetchResult (List JiraUser)) :
    ∀ (l : List Item) (memo : Option String) (calls : Nat) (i : Item),
      i ∈ (enrichWithUserTzAux oracle memo calls l).1 →
      ∃ j ∈ l, i.timeEntry = j.timeEntry ∧ i.config = j.config ∧
        i.projectConfig = j.projectConfig ∧ i.jiraIssue = j.jiraIssue ∧
        i.userTz.isSome := by
  intro l
  induction l with
  | nil => intro memo calls i h; simp [enrichWithUserTzAux] at h
  | cons x xs ih =>
    intro memo calls i h
    by_cases ht : truthyStr memo = true
    · rw [enrichWithUserTzAux, if_pos ht] at h
      rcases List.mem_cons.mp h with rfl | hmem
      · exact ⟨x, List.mem_cons_self x xs, rfl, rfl, rfl, rfl, truthyStr_isSome ht⟩
      · obtain ⟨j, hj, hs⟩ := ih memo calls i hmem
        exact ⟨j, List.mem_cons_of_mem x hj, hs⟩
    · rw [enrichWithUserTzAux, if_neg ht] at h
      cases ho : oracle calls with
      | httpError s b =>
        rw [ho] at h
        rcases List.mem_cons.mp h with rfl | hmem
        · exact ⟨x, List.mem_cons_self x xs, rfl, rfl, rfl, rfl, rfl⟩
        · obtain ⟨j, hj, hs⟩ := ih memo (calls + 1) i hmem
          exact ⟨j, List.mem_cons_of_mem x hj, hs⟩
      | ok users =>
        rw [ho] at h
        cases users with
        | nil =>
          rcases List.mem_cons.mp h with rfl | hmem
          · exact ⟨x, List.mem_cons_self x xs, rfl, rfl, rfl, rfl, rfl⟩
          · obtain ⟨j, hj, hs⟩ := ih memo (calls + 1) i hmem
            exact ⟨j, List.mem_cons_of_mem x hj, hs⟩
        | cons u us =>
          rcases List.mem_cons.mp h with rfl | hmem
          · exact ⟨x, List.mem_cons_self x xs, rfl, rfl, rfl, rfl, rfl⟩
          · obtain ⟨j, hj, hs⟩ := ih (some u.timeZone) (calls + 1) i hmem
            exact ⟨j, List.mem_cons_of_mem x hj, hs⟩

/-- C5 (counterexample to the claimed severity): on an HTTP failure of the
assignable-users query the stage's single diagnostic is emitted with
`logger.error`, not as a warning. -/
theorem C5_timezone_counterexample :
    (enrichWithUserTz (fun _ => .httpError 500 "boom") [itemTwoKeys]).2.1 =
        [.tzFetchError 314 500 "boom"] ∧
      (LogEntry.tzFetchError 314 500 "boom").level = .error ∧
      LogLevel.error ≠ LogLevel.warn := by
  refine ⟨by decide, rfl, by decide⟩

/-- C5 (amended): the first resolved timezone is cached, so if the first
call resolves the endpoint is hit at most once; while the lookup keeps
failing (HTTP error, logged at error level, or empty result, logged as a
warning) the stage stamps the fixed default `America/New_York`, caches
nothing, and calls once per record; after a failure the next record
triggers a fresh call (exactly 2 calls when the first fails and the second
resolves); every yielded record has `userTz` populated. -/
theorem C5_timezone_memoization (oracle : Nat → FetchResult (List JiraUser))
    (items : List Item) (s : Nat) (b : String) :
    (tzResolves (oracle 0) = true → (enrichWithUserTz oracle items).2.2 ≤ 1) ∧
      (enrichWithUserTz (fun _ => .httpError s b) items =
        (items.map fun i => { i with userTz := some TZ_AMERICA_NEW_YORK },
          items.map fun i => .tzFetchError i.timeEntry.id s b,
          items.length)) ∧
      (∀ tid, (LogEntry.tzFetchError tid s b).level = .error) ∧
      (enrichWithUserTz (fun _ => .ok []) items =
        (items.map fun i => { i with userTz := some TZ_AMERICA_NEW_YORK },
          items.map fun _ => .tzNoUser,
          items.length)) ∧
      LogEntry.tzNoUser.level = .warn ∧
      (∀ x y rest, tzFailing (oracle 0) = true → tzResolves (oracle 1) = true →
        (enrichWithUserTz oracle (x :: y :: rest)).2.2 = 2) ∧
      (∀ i ∈ (enrichWithUserTz oracle items).1, i.userTz.isSome) := by
  refine ⟨?_, ?_, fun _ => rfl, ?_, rfl, ?_, ?_⟩
  · intro h
    cases items with
    | nil => simp [enrichWithUserTz, enrichWithUserTzAux]
    | cons x xs =>
      cases ho : oracle 0 with
      | httpError s' b' => rw [ho] at h; simp [tzResolves] at h
      | ok users =>
        cases users with
        | nil => rw [ho] at h; simp [tzResolves] at h
        | cons u us =>
          have hu : truthyStr (some u.timeZone) = true := by
            rw [ho] at h; simpa [tzResolves, truthyStr] using h
          simp [enrichWithUserTz, enrichWithUserTzAux, truthyStr, ho,
            enrichWithUserTzAux_cached oracle (some u.timeZone) hu xs 1]
  · simpa using enrichWithUserTzAux_httpError s b items 0
  · simpa using enrichWithUserTzAux_emptyUsers items 0
  · intro x y rest h0 h1
    have step2 : (enrichWithUserTzAux oracle none 1 (y :: rest)).2.2 = 2 := by
      cases h1' : oracle 1 with
      | httpError s' b' => rw [h1'] at h1; simp [tzResolves] at h1
      | ok users =>
        cases users with
        | nil => rw [h1'] at h1; simp [tzResolves] at h1
        | cons u us =>
          have hu : truthyStr (some u.timeZone) = true := by
            rw [h1'] at h1; simpa [tzResolves, truthyStr] using h1
          simp [enrichWithUserTzAux, truthyStr, h1',
            enrichWithUserTzAux_cached oracle (some u.timeZone) hu rest 2]
    have hnone : ¬ truthyStr (none : Option String) = true := by simp [truthyStr]
    cases h0' : oracle 0 with
    | httpError s' b' =>
      rw [enrichWithUserTz, enrichWithUserTzAux, if_neg hnone, h0']
      simpa using step2
    | ok users =>
      cases users with
      | nil =>
        rw [enrichWithUserTz, enrichWithUserTzAux, if_neg hnone, h0']
        simpa using step2
      | cons u us => rw [h0'] at h0; simp [tzFailing] at h0
  · intro i hi
    obtain ⟨j, _, _, _, _, _, h5⟩ := enrichWithUserTzAux_mem oracle items none 0 i hi
    exact h5

theorem C5_timezone_memoization_witness :
    tzResolves ((fun _ => .ok [{ timeZone := "Europe/Paris" }] :
        Nat → FetchResult (List JiraUser)) 0) = true ∧
      (enrichWithUserTz (fun _ => .ok [{ timeZone := "Europe/Paris" }])
        [itemTwoKeys, itemTwoKeys, itemTwoKeys]).2.2 ≤ 1 ∧
      tzFailing (oracleRetry 0) = true ∧ tzResolves (oracleRetry 1) = true ∧
      (enrichWithUserTz oracleRetry [itemTwoKeys, itemTwoKeys, itemTwoKeys]).2.2 = 2 :=
  ⟨by decide,
    (C5_timezone_memoization (fun _ => .ok [{ timeZone := "Europe/Paris" }])
      [itemTwoKeys, itemTwoKeys, itemTwoKeys] 0 "").1 (by decide),
    by decide, by decide,
    (C5_timezone_memoization oracleRetry [] 0 "").2.2.2.2.2.1
      itemTwoKeys itemTwoKeys [itemTwoKeys] (by decide) (by decide)⟩

/-- The work-log stage is the per-item collection, mapped. -/
theorem enrichWithJiraWorkLogs_fst (oracle : String → Nat → FetchResult JiraWorkLogResponse)
    (fuel : Nat) :
    ∀ items : List Item,
      (enrichWithJiraWorkLogs oracle fuel items).1 =
        items.map fun i => (enrichWithJiraWorkLogsOne oracle fuel i).1 := by
  intro items
  induction items with
  | nil => rfl
  | cons i rest ih => simp [enrichWithJiraWorkLogs, ih]

/-- C9: when a work-log page fetch fails, `enrichWithJiraWorkLogs` breaks
out of the paging loop and still yields the record (the stage never drops
or aborts) with only the pages collected before the failure — the empty
collection when the first page already fails; consequently the downstream
duplicate filter decides on incomplete data, and an entry that is already
logged remotely passes the duplicate check that would reject it on the
full collection. -/
theorem C9_worklog_failure_keeps_record (oracle : String → Nat → FetchResult JiraWorkLogResponse)
    (fuel : Nat) (items : List Item) (item : Item) (s : Nat) (b : String) :
    (enrichWithJiraWorkLogs oracle fuel items).1.length = items.length ∧
      (oracle (itemJiraKey item) 0 = .httpError s b →
        enrichWithJiraWorkLogsOne oracle (fuel + 1) item =
          ({ item with workLogs := some [] }, [.worklogsFetchError s b])) ∧
      (∀ resp, oracle (itemJiraKey item) 0 = .ok resp → resp.startAt ≠ 0 →
        oracle (itemJiraKey item) resp.startAt = .httpError s b →
        enrichWithJiraWorkLogsOne oracle (fuel + 2) item =
          ({ item with workLogs := some resp.worklogs }, [.worklogsFetchError s b])) ∧
      (canLogItemToJira entryTwoKeys sampleConfig { key := "FOO-12" } []).1 = true ∧
      (canLogItemToJira entryTwoKeys sampleConfig { key := "FOO-12" }
          [buildWorkLogRequestBody 314 "2023-05-02" 3 TZ_AMERICA_NEW_YORK]).1 = false := by
  refine ⟨by simp [enrichWithJiraWorkLogs_fst], ?_, ?_, by decide, by decide⟩
  · intro h
    simp [enrichWithJiraWorkLogsOne, collectWorkLogsAux, getWorklogs, h]
  · intro resp h0 hne h1
    simp [enrichWithJiraWorkLogsOne, collectWorkLogsAux, getWorklogs, h0, hne, h1]

theorem C9_worklog_failure_keeps_record_witness :
    wlOracleFailing (itemJiraKey itemWithIssue) 0 = .httpError 503 "unavailable" ∧
      enrichWithJiraWorkLogsOne wlOracleFailing 1 itemWithIssue =
        ({ itemWithIssue with workLogs := some [] },
          [.worklogsFetchError 503 "unavailable"]) :=
  ⟨rfl, (C9_worklog_failure_keeps_record wlOracleFailing 0 [] itemWithIssue
    503 "unavailable").2.1 rfl⟩

/-- `tap` yields every input record unchanged, in both modes and under any
POST outcome. -/
theorem logTimeEntriesToJira_fst (postOracle : String → JiraWorkLog → FetchResult Unit)
    (dryRun : Bool) :
    ∀ items : List Item, (logTimeEntriesToJira postOracle dryRun items).1 = items := by
  intro items
  induction items with
  | nil => rfl
  | cons i rest ih => simp [logTimeEntriesToJira, ih]

/-- In dry-run mode the writer issues no effect and logs exactly one debug
entry per record, carrying the would-be request body. -/
theorem logTimeEntriesToJira_dry (postOracle : String → JiraWorkLog → FetchResult Unit) :
    ∀ items : List Item,
      logTimeEntriesToJira postOracle true items =
        (items, [], items.map fun i => .dryRunSkip (itemRequestBody i) (itemJiraKey i)) := by
  intro items
  induction items with
  | nil => rfl
  | cons i rest ih => simp [logTimeEntriesToJira, logOneTimeEntry, ih]

/-- C7: in dry-run mode no creation POST is issued for any surviving
record — the writer's effect list is empty and the would-be request body
is logged at debug level — while every record still passes through the
writer, so the final total-hours summary is exactly the one live mode
would report over the same stream. -/
theorem C7_dry_run (env : Env) (entries : List HarvestTimeEntry) (config : Config)
    (postOracle : String → JiraWorkLog → FetchResult Unit) (items : List Item) :
    logTimeEntriesToJira postOracle true items =
        (items, [], items.map fun i => .dryRunSkip (itemRequestBody i) (itemJiraKey i)) ∧
      (∀ i : Item, (LogEntry.dryRunSkip (itemRequestBody i) (itemJiraKey i)).level = .debug) ∧
      (runPipeline env entries config true).effects = [] ∧
      (runPipeline env entries config true).writerOutput =
        (runPipeline env entries config true).writerInput ∧
      (runPipeline env entries config true).writerLogs =
        (runPipeline env entries config true).writerInput.map
          (fun i => .dryRunSkip (itemRequestBody i) (itemJiraKey i)) ∧
      (runPipeline env entries config true).totalLoggedHours =
        (runPipeline env entries config false).totalLoggedHours := by
  refine ⟨logTimeEntriesToJira_dry postOracle items, fun _ => rfl, ?_, ?_, ?_, ?_⟩ <;>
    simp [runPipeline, logTimeEntriesToJira_dry, logTimeEntriesToJira_fst]

/-- C10: in live mode a record whose creation POST fails is still passed
through the writer (`tap` returns after the error log), so the writer's
output equals its input under every POST oracle, and the final
total-hours fold counts every attempted record: the single diagnostic for
such a record is the error-level `postFailed` entry, and its POST effect
was issued. -/
theorem C10_live_post_failure (postOracle : String → JiraWorkLog → FetchResult Unit)
    (items : List Item) (item : Item) (s : Nat) (b : String) (env : Env)
    (entries : List HarvestTimeEntry) (config : Config) :
    (logTimeEntriesToJira postOracle false items).1 = items ∧
      (postOracle (itemJiraKey item) (itemRequestBody item) = .httpError s b →
        logOneTimeEntry postOracle false item =
          ([.post (itemJiraKey item) (itemRequestBody item)],
            [.postFailed item.timeEntry.id s b])) ∧
      (LogEntry.postFailed item.timeEntry.id s b).level = .error ∧
      (runPipeline env entries config false).writerOutput =
        (runPipeline env entries config false).writerInput ∧
      (runPipeline env entries config false).totalLoggedHours =
        totalHours ((runPipeline env entries config false).writerInput) := by
  refine ⟨logTimeEntriesToJira_fst postOracle false items, ?_, rfl, ?_, ?_⟩
  · intro h
    simp [logOneTimeEntry, h]
  · simp [runPipeline, logTimeEntriesToJira_fst]
  · simp [runPipeline, logTimeEntriesToJira_fst]

theorem C10_live_post_failure_witness :
    postOracleFailing (itemJiraKey itemWithIssue) (itemRequestBody itemWithIssue) =
        .httpError 500 "kaput" ∧
      logOneTimeEntry postOracleFailing false itemWithIssue =
        ([.post (itemJiraKey itemWithIssue) (itemRequestBody itemWithIssue)],
          [.postFailed 314 500 "kaput"]) :=
  ⟨rfl, (C10_live_post_failure postOracleFailing [] itemWithIssue 500 "kaput"
    env0 [] sampleConfig).2.1 rfl⟩

/-- The issue stage is the per-item resolution, mapped. -/
theorem enrichWithJiraIssue_fst (oracle : String → FetchResult JiraIssue) :
    ∀ items : List Item,
      (enrichWithJiraIssue oracle items).1 =
        items.map fun i => (enrichWithJiraIssueOne oracle i).1 := by
  intro items
  induction items with
  | nil => rfl
  | cons i rest ih => simp [enrichWithJiraIssue, ih]

/-- The issue stage only ever rewrites the `jiraIssue` field. -/
theorem enrichWithJiraIssueOne_shape (oracle : String → FetchResult JiraIssue) (i : Item) :
    ∃ v, (enrichWithJiraIssueOne oracle i).1 = { i with jiraIssue := v } := by
  cases hm : (extractJiraKeys (i.projectConfig.bind fun pc => pc.jiraProjectKey)
      i.timeEntry.notes).head? with
  | none => exact ⟨none, by simp [enrichWithJiraIssueOne, hm]⟩
  | some k => exact ⟨(getJiraIssue oracle k).1, by simp [enrichWithJiraIssueOne, hm]⟩

/-- C3: every record that reaches the Work-Log Writer has `projectConfig`,
`userTz` and `jiraIssue` all present: the has-project-config filter sits
right after project-config enrichment, the has-issue filter right after
issue resolution, and the timezone stage populates `userTz` on every
record it yields. -/
theorem C3_pipeline_invariant (env : Env) (entries : List HarvestTimeEntry)
    (config : Config) (dryRun : Bool) :
    (∀ i ∈ (runPipeline env entries config dryRun).afterUserTz, i.userTz.isSome) ∧
      ∀ i ∈ (runPipeline env entries config dryRun).writerInput,
        i.projectConfig.isSome ∧ i.userTz.isSome ∧ i.jiraIssue.isSome := by
  constructor
  · intro i hi
    simp only [runPipeline, enrichWithUserTz] at hi
    obtain ⟨j, _, _, _, _, _, h5⟩ := enrichWithUserTzAux_mem env.tzOracle _ none 0 i hi
    exact h5
  · intro i hi
    simp only [runPipeline, enrichWithUserTz] at hi
    have hi6 := (List.mem_filter.mp hi).1
    rw [enrichWithJiraWorkLogs_fst] at hi6
    obtain ⟨j5, hj5, rfl⟩ := List.mem_map.mp hi6
    have hj5i : j5.jiraIssue.isSome := by simpa using (List.mem_filter.mp hj5).2
    have hj5m := (List.mem_filter.mp hj5).1
    rw [enrichWithJiraIssue_fst] at hj5m
    obtain ⟨k3, hk3, rfl⟩ := List.mem_map.mp hj5m
    obtain ⟨v, hv⟩ := enrichWithJiraIssueOne_shape env.issueOracle k3
    obtain ⟨m2, hm2, _, _, he3, _, he5⟩ :=
      enrichWithUserTzAux_mem env.tzOracle _ none 0 k3 hk3
    have hm2pc : m2.projectConfig.isSome := by simpa using (List.mem_filter.mp hm2).2
    have hk3pc : k3.projectConfig.isSome := by rw [he3]; exact hm2pc
    rw [hv] at hj5i ⊢
    simp only [enrichWithJiraWorkLogsOne]
    refine ⟨by simpa using hk3pc, by simpa using he5, by simpa using hj5i⟩

theorem C3_pipeline_invariant_witness :
    writerItem ∈ (runPipeline env0 [entryTwoKeys] sampleConfig true).writerInput ∧
      writerItem.projectConfig.isSome ∧ writerItem.userTz.isSome ∧
        writerItem.jiraIssue.isSome :=
  ⟨by decide,
    (C3_pipeline_invariant env0 [entryTwoKeys] sampleConfig true).2 writerItem (by decide)⟩

end HarvestToJira
